import Mathlib

/-!
Verification of the runtime mesh import/export plugin's scene-graph
marshaling engine: a shallow embedding of its data model (mesh sections,
scene nodes, the assimp-facing scene pools) and of the operations the
design document describes (section validation, section merging, node
lookup/creation, transform correction, gathering, mesh building and the
export orchestration), with theorems settling the design document's
claims against the embedded code.

Numeric conventions of the embedding: Unreal float vectors are modelled
over ℚ; `FName` is modelled as `Option String` (`none` = `NAME_None`);
a `UMaterialInterface*` handle is modelled as `Option Nat` (`none` =
null pointer, the `Nat` standing for pointer identity); rotations are
modelled as 3x3 matrices over ℚ (exact for the quantized ±90 degree
corrections the code uses).
-/

namespace RMIE

/-- Vector of three rational components, modelling FVector. -/
structure V3 where
  x : ℚ
  y : ℚ
  z : ℚ
deriving DecidableEq

/-- Vector of two rational components, modelling FVector2D. -/
structure V2 where
  x : ℚ
  y : ℚ
deriving DecidableEq

/-- Byte-channel color, modelling FColor (channels 0..255). -/
structure ColB where
  r : ℕ
  g : ℕ
  b : ℕ
  a : ℕ
deriving DecidableEq

/-- Linear color, modelling FLinearColor / aiColor4D. -/
structure Col4 where
  r : ℚ
  g : ℚ
  b : ℚ
  a : ℚ
deriving DecidableEq

/-- FColor::ReinterpretAsLinear: divides every byte channel by 255. -/
def reinterpretAsLinear (c : ColB) : Col4 :=
  ⟨(c.r : ℚ) / 255, (c.g : ℚ) / 255, (c.b : ℚ) / 255, (c.a : ℚ) / 255⟩

/-- 3x3 rational matrix; models the rotation part of a transform. -/
structure Mat3 where
  a00 : ℚ
  a01 : ℚ
  a02 : ℚ
  a10 : ℚ
  a11 : ℚ
  a12 : ℚ
  a20 : ℚ
  a21 : ℚ
  a22 : ℚ
deriving DecidableEq

/-- Matrix product. -/
def Mat3.mul (A B : Mat3) : Mat3 :=
  ⟨A.a00 * B.a00 + A.a01 * B.a10 + A.a02 * B.a20,
   A.a00 * B.a01 + A.a01 * B.a11 + A.a02 * B.a21,
   A.a00 * B.a02 + A.a01 * B.a12 + A.a02 * B.a22,
   A.a10 * B.a00 + A.a11 * B.a10 + A.a12 * B.a20,
   A.a10 * B.a01 + A.a11 * B.a11 + A.a12 * B.a21,
   A.a10 * B.a02 + A.a11 * B.a12 + A.a12 * B.a22,
   A.a20 * B.a00 + A.a21 * B.a10 + A.a22 * B.a20,
   A.a20 * B.a01 + A.a21 * B.a11 + A.a22 * B.a21,
   A.a20 * B.a02 + A.a21 * B.a12 + A.a22 * B.a22⟩

/-- Matrix transpose (the inverse of a rotation matrix). -/
def Mat3.transpose (A : Mat3) : Mat3 :=
  ⟨A.a00, A.a10, A.a20, A.a01, A.a11, A.a21, A.a02, A.a12, A.a22⟩

/-- Identity matrix. -/
def Mat3.one : Mat3 := ⟨1, 0, 0, 0, 1, 0, 0, 0, 1⟩

/-- Matrix applied to a column vector. -/
def Mat3.apply (A : Mat3) (v : V3) : V3 :=
  ⟨A.a00 * v.x + A.a01 * v.y + A.a02 * v.z,
   A.a10 * v.x + A.a11 * v.y + A.a12 * v.z,
   A.a20 * v.x + A.a21 * v.y + A.a22 * v.z⟩

/-- Componentwise vector sum. -/
def V3.add (u v : V3) : V3 := ⟨u.x + v.x, u.y + v.y, u.z + v.z⟩

/-- Componentwise (Hadamard) vector product, as scale application. -/
def V3.hadamard (u v : V3) : V3 := ⟨u.x * v.x, u.y * v.y, u.z * v.z⟩

/-- Vector negation. -/
def V3.neg (v : V3) : V3 := ⟨-v.x, -v.y, -v.z⟩

/-- Scalar multiple. -/
def V3.smul (q : ℚ) (v : V3) : V3 := ⟨q * v.x, q * v.y, q * v.z⟩

/-- Componentwise reciprocal; models GetSafeScaleReciprocal (ℚ division
by zero yields zero, matching the "safe" clamp for a zero component). -/
def V3.recip (v : V3) : V3 := ⟨1 / v.x, 1 / v.y, 1 / v.z⟩

/-- Model of FTransform: rotation (as an exact rotation matrix),
translation and 3D scale, over ℚ. -/
structure FTransformQ where
  rotation : Mat3
  translation : V3
  scale3D : V3
deriving DecidableEq

/-- Identity transform (default-constructed FTransform). -/
def FTransformQ.identity : FTransformQ := ⟨Mat3.one, ⟨0, 0, 0⟩, ⟨1, 1, 1⟩⟩

/-- FTransform::TransformPosition: scale, rotate, then translate. -/
def FTransformQ.TransformPosition (t : FTransformQ) (v : V3) : V3 :=
  V3.add (t.rotation.apply (t.scale3D.hadamard v)) t.translation

/-- FTransform::TransformVector: scale and rotate, no translation. -/
def FTransformQ.TransformVector (t : FTransformQ) (v : V3) : V3 :=
  t.rotation.apply (t.scale3D.hadamard v)

/-- FTransform::Inverse: inverse rotation (transpose), reciprocal scale,
and translation mapped through both. -/
def FTransformQ.Inverse (t : FTransformQ) : FTransformQ :=
  let invRotation := t.rotation.transpose
  let invScale3D := t.scale3D.recip
  ⟨invRotation, invRotation.apply (invScale3D.hadamard t.translation.neg), invScale3D⟩

/-- FTransform composition A * B (apply A first, then B): rotations
compose, scales multiply componentwise, and A's translation is carried
through B. -/
def FTransformQ.mul (A B : FTransformQ) : FTransformQ :=
  ⟨B.rotation.mul A.rotation,
   V3.add (B.rotation.apply (B.scale3D.hadamard A.translation)) B.translation,
   A.scale3D.hadamard B.scale3D⟩

/-- FTransform::ConcatenateRotation: multiplies the delta rotation onto
the stored rotation, leaving translation and scale untouched. -/
def FTransformQ.ConcatenateRotation (t : FTransformQ) (m : Mat3) : FTransformQ :=
  { t with rotation := t.rotation.mul m }

/-- The quantized per-axis rotation correction choices (ERotationCorrection). -/
inductive ERotationCorrection where
  | Minus_90
  | Zero
  | Plus_90
deriving DecidableEq

/-- URuntimeMeshImportExportLibrary::RotationCorrectionToValue: the
angle in degrees for each correction case. -/
def RotationCorrectionToValue : ERotationCorrection → ℚ
  | ERotationCorrection.Minus_90 => -90
  | ERotationCorrection.Zero => 0
  | ERotationCorrection.Plus_90 => 90

/-- Sine of a quantized correction angle (exact: sin(-90)=-1, sin 0=0, sin 90=1). -/
def sinOfCorrection : ERotationCorrection → ℚ
  | ERotationCorrection.Minus_90 => -1
  | ERotationCorrection.Zero => 0
  | ERotationCorrection.Plus_90 => 1

/-- Cosine of a quantized correction angle (exact: cos(±90)=0, cos 0=1). -/
def cosOfCorrection : ERotationCorrection → ℚ
  | ERotationCorrection.Minus_90 => 0
  | ERotationCorrection.Zero => 1
  | ERotationCorrection.Plus_90 => 0

/-- Rotation about the X axis by a quantized correction angle. -/
def RotMatX (c : ERotationCorrection) : Mat3 :=
  ⟨1, 0, 0,
   0, cosOfCorrection c, -(sinOfCorrection c),
   0, sinOfCorrection c, cosOfCorrection c⟩

/-- Rotation about the Y axis by a quantized correction angle. -/
def RotMatY (c : ERotationCorrection) : Mat3 :=
  ⟨cosOfCorrection c, 0, sinOfCorrection c,
   0, 1, 0,
   -(sinOfCorrection c), 0, cosOfCorrection c⟩

/-- Rotation about the Z axis by a quantized correction angle. -/
def RotMatZ (c : ERotationCorrection) : Mat3 :=
  ⟨cosOfCorrection c, -(sinOfCorrection c), 0,
   sinOfCorrection c, cosOfCorrection c, 0,
   0, 0, 1⟩

/-- FRotator(pitch, yaw, roll).Quaternion() as an exact rotation matrix
(yaw about Z, pitch about Y, roll about X, composed in the engine's
Z-Y-X order); exact because the corrections are multiples of 90°. -/
def RotatorToMatrix (pitch yaw roll : ERotationCorrection) : Mat3 :=
  (RotMatZ yaw).mul ((RotMatY pitch).mul (RotMatX roll))

/-- FTransformCorrection: per-axis scale flip flags, quantized per-axis
rotation corrections, and a uniform scale factor. -/
structure FTransformCorrection where
  bFlipX : Bool
  bFlipY : Bool
  bFlipZ : Bool
  RollCorrection_X : ERotationCorrection
  PitchCorrection_Y : ERotationCorrection
  YawCorrection_Z : ERotationCorrection
  scaleFactor : ℚ
deriving DecidableEq

/-- The fields of FRuntimeMeshExportParam the engine core reads. -/
structure FRuntimeMeshExportParam where
  bCombineSameMaterial : Bool
  lod : ℤ
  bSkipLodNotValid : Bool
  correction : FTransformCorrection
deriving DecidableEq

/-- FExportableMeshSection: a material-tagged bundle of parallel vertex
attribute arrays plus a flat triangle index buffer. The material handle
is pointer identity (`none` = null). -/
structure FExportableMeshSection where
  meshToWorld : FTransformQ
  material : Option ℕ
  vertices : List V3
  normals : List V3
  tangents : List V3
  textureCoordinates : List V2
  vertexColors : List ColB
  triangles : List ℤ
deriving DecidableEq

/-- FExportableMeshSection::Append: concatenates every parallel array of
`other` onto `self` and appends `other`'s triangle indices offset by
`self`'s vertex count taken before the append. -/
def FExportableMeshSection.Append (self other : FExportableMeshSection) : FExportableMeshSection :=
  let triangleOffset : ℤ := self.vertices.length
  { self with
    vertices := self.vertices ++ other.vertices
    normals := self.normals ++ other.normals
    tangents := self.tangents ++ other.tangents
    textureCoordinates := self.textureCoordinates ++ other.textureCoordinates
    vertexColors := self.vertexColors ++ other.vertexColors
    triangles := self.triangles ++ other.triangles.map (fun tri => tri + triangleOffset) }

/-- FAssimpNode::ValidateMeshSection: starts from valid and knocks the
flag to false for each violated length invariant, mirroring the five
sequential checks of the source. -/
def ValidateMeshSection (s : FExportableMeshSection) : Bool :=
  let numVertices := s.vertices.length
  let bMeshValid := true
  let bMeshValid := if s.normals.length ≠ numVertices then false else bMeshValid
  let bMeshValid := if s.tangents.length ≠ numVertices then false else bMeshValid
  let bMeshValid := if s.vertexColors.length ≠ numVertices then false else bMeshValid
  let bMeshValid := if s.textureCoordinates.length ≠ numVertices then false else bMeshValid
  let bMeshValid := if s.triangles.length % 3 ≠ 0 then false else bMeshValid
  bMeshValid

/-- FRuntimeMeshImportSectionInfo: an imported section's owned buffers
plus its material name (`none` models NAME_None) and material index
(-1 models INDEX_NONE). -/
structure FRuntimeMeshImportSectionInfo where
  materialName : Option String
  materialIndex : ℤ
  vertices : List V3
  triangles : List ℤ
  normals : List V3
  uv0 : List V2
  vertexColors : List Col4
  tangents : List V3
deriving DecidableEq

/-- URuntimeMeshImportExportLibrary::OffsetTriangleArray: adds the given
offset to every triangle index. -/
def OffsetTriangleArray (offset : ℤ) (triangles : List ℤ) : List ℤ :=
  triangles.map (fun index => index + offset)

/-- FRuntimeMeshImportSectionInfo::Append_Move: offsets the source's
triangle indices by the destination's vertex count, moves every buffer
of the source onto the destination, keeps a material field only when
both sides agree on it, and clears the source's material fields. The
result is the pair (destination after, source after the moves). -/
def FRuntimeMeshImportSectionInfo.Append_Move (self other : FRuntimeMeshImportSectionInfo) :
    FRuntimeMeshImportSectionInfo × FRuntimeMeshImportSectionInfo :=
  let movedTriangles := OffsetTriangleArray (self.vertices.length : ℤ) other.triangles
  (⟨if self.materialName = other.materialName then self.materialName else none,
    if self.materialIndex = other.materialIndex then self.materialIndex else -1,
    self.vertices ++ other.vertices,
    self.triangles ++ movedTriangles,
    self.normals ++ other.normals,
    self.uv0 ++ other.uv0,
    self.vertexColors ++ other.vertexColors,
    self.tangents ++ other.tangents⟩,
   ⟨none, -1, [], [], [], [], [], []⟩)

/-- A triangular assimp face (aiFace with mNumIndices == 3). -/
structure AiFace where
  i0 : ℕ
  i1 : ℕ
  i2 : ℕ
deriving DecidableEq

/-- The triangle-import loop of ImportMeshesOfNode: when the composed
node transform's scale components multiply to a negative value the
winding order is flipped by emitting each face as (0, 2, 1), otherwise
faces are emitted as (0, 1, 2). -/
def ImportSectionTriangles (transform : FTransformQ) (faces : List AiFace) : List ℤ :=
  let bFlipTriangleWindingOrder :=
    transform.scale3D.x * transform.scale3D.y * transform.scale3D.z < 0
  if bFlipTriangleWindingOrder then
    faces.foldl (fun tris face => tris ++ [(face.i0 : ℤ), (face.i2 : ℤ), (face.i1 : ℤ)]) []
  else
    faces.foldl (fun tris face => tris ++ [(face.i0 : ℤ), (face.i1 : ℤ), (face.i2 : ℤ)]) []

/-- Swap the second and third index of every consecutive index triple. -/
def FlipWinding : List ℤ → List ℤ
  | a :: b :: c :: rest => a :: c :: b :: FlipWinding rest
  | l => l

/-- Example section A of the design document: 3 vertices and 1 triangle. -/
def exampleSectionA : FExportableMeshSection :=
  { meshToWorld := FTransformQ.identity
    material := some 7
    vertices := [⟨0, 0, 0⟩, ⟨1, 0, 0⟩, ⟨0, 1, 0⟩]
    normals := [⟨0, 0, 1⟩, ⟨0, 0, 1⟩, ⟨0, 0, 1⟩]
    tangents := [⟨1, 0, 0⟩, ⟨1, 0, 0⟩, ⟨1, 0, 0⟩]
    textureCoordinates := [⟨0, 0⟩, ⟨1, 0⟩, ⟨0, 1⟩]
    vertexColors := [⟨255, 0, 0, 255⟩, ⟨0, 255, 0, 255⟩, ⟨0, 0, 255, 255⟩]
    triangles := [0, 1, 2] }

/-- Example section B of the design document: 2 vertices and 0 triangles,
same material handle as A. -/
def exampleSectionB : FExportableMeshSection :=
  { meshToWorld := FTransformQ.identity
    material := some 7
    vertices := [⟨2, 0, 0⟩, ⟨0, 2, 0⟩]
    normals := [⟨0, 0, 1⟩, ⟨0, 0, 1⟩]
    tangents := [⟨1, 0, 0⟩, ⟨1, 0, 0⟩]
    textureCoordinates := [⟨0, 0⟩, ⟨1, 1⟩]
    vertexColors := [⟨0, 0, 0, 255⟩, ⟨255, 255, 255, 255⟩]
    triangles := [] }

/-- A geometry source (IMeshExportable) as the engine observes it: the
default hierarchical node path it reports, and the response of its
Execute_GetMeshData call for the requested LOD — the accepted flag and
the section list it fills. -/
structure IMeshExportable where
  hierarchicalNodeName : List String
  bAccepted : Bool
  sections : List FExportableMeshSection
deriving DecidableEq

/-- FAssimpNode: interned name, world transform, attached geometry
sources, and the exclusively owned ordered child list. -/
inductive FAssimpNode where
  | mk (name : String) (worldTransform : FTransformQ)
      (exportObjects : List IMeshExportable) (children : List FAssimpNode)

/-- The node's name. -/
def FAssimpNode.name : FAssimpNode → String
  | FAssimpNode.mk n _ _ _ => n

/-- The node's world transform. -/
def FAssimpNode.worldTransform : FAssimpNode → FTransformQ
  | FAssimpNode.mk _ tf _ _ => tf

/-- The node's attached geometry sources. -/
def FAssimpNode.exportObjects : FAssimpNode → List IMeshExportable
  | FAssimpNode.mk _ _ objs _ => objs

/-- The node's ordered child list. -/
def FAssimpNode.children : FAssimpNode → List FAssimpNode
  | FAssimpNode.mk _ _ _ cs => cs

mutual

/-- FAssimpNode::GetNodesRecursive: the cached flattened traversal used
by the gather phase — the node itself, then its children front to back,
each recursively. -/
def GetNodesRecursive : FAssimpNode → List FAssimpNode
  | FAssimpNode.mk n tf objs cs =>
    FAssimpNode.mk n tf objs cs :: GetNodesRecursiveList cs

/-- Traversal of a child list front to back. -/
def GetNodesRecursiveList : List FAssimpNode → List FAssimpNode
  | [] => []
  | c :: cs => GetNodesRecursive c ++ GetNodesRecursiveList cs

end

mutual

/-- The node visit sequence of FAssimpNode::ProcessGatheredData_Internal:
the node itself first, then its children iterated from the last index
down to index zero, each recursively. -/
def ProcessGatheredOrder : FAssimpNode → List FAssimpNode
  | FAssimpNode.mk n tf objs cs =>
    FAssimpNode.mk n tf objs cs :: ProcessGatheredOrderListRev cs

/-- Visit of a child list from the last element to the first, mirroring
the source's descending index loop. -/
def ProcessGatheredOrderListRev : List FAssimpNode → List FAssimpNode
  | [] => []
  | c :: cs => ProcessGatheredOrderListRev cs ++ ProcessGatheredOrder c

end

mutual

/-- The tree with every child list reversed, at every level. -/
def MirrorNode : FAssimpNode → FAssimpNode
  | FAssimpNode.mk n tf objs cs => FAssimpNode.mk n tf objs (MirrorChildren cs)

/-- Reverse a child list, mirroring each child. -/
def MirrorChildren : List FAssimpNode → List FAssimpNode
  | [] => []
  | c :: cs => MirrorChildren cs ++ [MirrorNode c]

end

/-- FAssimpNode::GetHierarchicalName, stated over the node's chain of
ancestor names: the chain lists the node's own name first, then its
parent's, up to but excluding the parentless root. A parentless node
(empty chain) renders as the literal "root"; otherwise the parent
chain's name, a dot, then the node's own name. -/
def GetHierarchicalName : List String → String
  | [] => "root"
  | n :: ancestors => GetHierarchicalName ancestors ++ "." ++ n

/-- Replace the first child whose name matches with the given node,
mirroring mutation through the found pointer of FindByPredicate. -/
def SetFirstChild : List FAssimpNode → String → FAssimpNode → List FAssimpNode
  | [], _, _ => []
  | c :: cs, seg, c1 =>
    if c.name == seg then c1 :: cs else c :: SetFirstChild cs seg c1

/-- FAssimpNode::FindOrCreateNode: consumes the relative path segment by
segment; for each segment linear-searches the children by name
(first match wins), creating and appending a new child when absent;
returns the updated tree together with the found or created node (the
receiver itself for an empty path). -/
def FindOrCreateNode : FAssimpNode → List String → FAssimpNode × FAssimpNode
  | t, [] => (t, t)
  | FAssimpNode.mk nm tf objs cs, seg :: rest =>
    match cs.find? (fun child => child.name == seg) with
    | some childNode =>
      let r := FindOrCreateNode childNode rest
      (FAssimpNode.mk nm tf objs (SetFirstChild cs seg r.1), r.2)
    | none =>
      let r := FindOrCreateNode (FAssimpNode.mk seg FTransformQ.identity [] []) rest
      (FAssimpNode.mk nm tf objs (cs ++ [r.1]), r.2)

/-- FindOrCreateNode followed by a mutation of the found node through
the returned pointer (how AddNode and AddExportObject use it): the
navigation is the same, the update is applied at the target. -/
def FindOrCreateApply : FAssimpNode → List String → (FAssimpNode → FAssimpNode) → FAssimpNode
  | t, [], f => f t
  | FAssimpNode.mk nm tf objs cs, seg :: rest, f =>
    match cs.find? (fun child => child.name == seg) with
    | some childNode =>
      (FAssimpNode.mk nm tf objs
        (SetFirstChild cs seg (FindOrCreateApply childNode rest f)))
    | none =>
      (FAssimpNode.mk nm tf objs
        (cs ++ [FindOrCreateApply (FAssimpNode.mk seg FTransformQ.identity [] []) rest f]))

/-- Two-children tree on which the gather and build visit sequences differ. -/
def exampleTreeTwoChildren : FAssimpNode :=
  FAssimpNode.mk "r" FTransformQ.identity []
    [FAssimpNode.mk "a" FTransformQ.identity [] [],
     FAssimpNode.mk "b" FTransformQ.identity [] []]

/-- The transform set by FAssimpNode::SetDataAndPtrsToParentClass: a node
with a parent binds inverse(parent.worldTransform) * worldTransform with
no correction; the parentless root multiplies its scale by the uniform
factor, flips each axis sign whose flip flag is set, and concatenates the
rotation built from the three per-axis corrections landed as
FRotator(pitch correction Y, yaw correction Z, roll correction X). -/
def SetDataAndPtrsRelativeTransform (parentWorld : Option FTransformQ)
    (worldTransform : FTransformQ) (param : FRuntimeMeshExportParam) : FTransformQ :=
  match parentWorld with
  | some parentWorldTransform => (parentWorldTransform.Inverse).mul worldTransform
  | none =>
    let relativeTransform := worldTransform
    let scale := relativeTransform.scale3D
    let scale := V3.smul param.correction.scaleFactor scale
    let scale := if param.correction.bFlipX then { scale with x := scale.x * (-1) } else scale
    let scale := if param.correction.bFlipY then { scale with y := scale.y * (-1) } else scale
    let scale := if param.correction.bFlipZ then { scale with z := scale.z * (-1) } else scale
    let relativeTransform := { relativeTransform with scale3D := scale }
    relativeTransform.ConcatenateRotation
      (RotatorToMatrix param.correction.PitchCorrection_Y param.correction.YawCorrection_Z
        param.correction.RollCorrection_X)

/-- One iteration of FAssimpNode::GatherMeshData's loop over the node's
export objects: a refusal, an empty section list, or any invalid section
skips the whole object and bumps the scene skipped counter by exactly
one; otherwise the object's sections are buffered as a whole. The state
is (gathered section buffers, skipped counter delta). -/
def GatherMeshDataStep (st : List (List FExportableMeshSection) × ℕ)
    (object : IMeshExportable) : List (List FExportableMeshSection) × ℕ :=
  if !object.bAccepted then
    (st.1, st.2 + 1)
  else if object.sections.length = 0 then
    (st.1, st.2 + 1)
  else if !(object.sections.all fun s => ValidateMeshSection s) then
    (st.1, st.2 + 1)
  else
    (st.1 ++ [object.sections], st.2)

/-- FAssimpNode::GatherMeshData in gather-all mode: every export object
of the node processed in order, from empty buffers and a zero skip
delta. -/
def GatherMeshData (objects : List IMeshExportable) :
    List (List FExportableMeshSection) × ℕ :=
  objects.foldl GatherMeshDataStep ([], 0)

/-- The kept-object condition equivalent to passing all three skip
checks of the gather loop: accepted, non-empty, and every section valid. -/
def GatherKeeps (o : IMeshExportable) : Bool :=
  o.bAccepted && !o.sections.isEmpty && (o.sections.all fun s => ValidateMeshSection s)

/-- An aiMaterial record as the mesh builder creates it. -/
structure AiMaterialRec where
  name : String
  twoSided : Bool
  shininess : ℚ
  diffuseTexturePath : String
deriving DecidableEq

/-- The hard-coded diffuse texture path the code attaches to every newly
created material. -/
def assimpDiffuseTexturePath : String :=
  "E:\\Unreal Engine Projects\\ImportExportDemo\\Export\\T_Chair_M.jpg"

/-- FAssimpMesh as filled by CreateAssimpMeshesFromMeshData: the moved
vertex buffers, zero-filled bitangents, converted colors, the first UV
channel with 2 components and z = 0, and 3-index faces. -/
structure FAssimpMesh where
  materialIndex : ℕ
  vertices : List V3
  normals : List V3
  tangents : List V3
  bitangents : List V3
  vertexColors : List Col4
  numUVComponents0 : ℕ
  textureCoordinates0 : List V3
  faces : List (ℤ × ℤ × ℤ)
deriving DecidableEq

/-- The scene's owned mesh and material pools together with the
unique-material index that keys deduplication on handle identity. -/
structure ScenePools where
  meshes : List FAssimpMesh
  materials : List AiMaterialRec
  uniqueMaterials : List (Option ℕ)
deriving DecidableEq

/-- TArray::Find over the unique-materials array: the index of the first
entry equal to the key, or none. -/
def TArrayFindIndex : List (Option ℕ) → Option ℕ → Option ℕ
  | [], _ => none
  | x :: xs, key =>
    if x == key then some 0 else (TArrayFindIndex xs key).map (fun i => i + 1)

/-- Expansion of the flat triangle index buffer into fixed 3-index faces. -/
def TrianglesToFaces : List ℤ → List (ℤ × ℤ × ℤ)
  | a :: b :: c :: rest => (a, b, c) :: TrianglesToFaces rest
  | _ => []

/-- The per-section body of the mesh-creation loop: creates the aiMesh
and resolves its material index via uniqueMaterials, appending exactly
one new material record — name from the handle (or "Unknown" for a null
handle), two-sided forced true, zero shininess, and the diffuse texture
property — when the handle is new. `materialNameOf` models
UMaterialInterface::GetName for each handle. -/
def CreateMeshFromSection (materialNameOf : ℕ → String) (st : ScenePools)
    (s : FExportableMeshSection) : ScenePools :=
  let buildMesh := fun (matIndex : ℕ) =>
    ({ materialIndex := matIndex
       vertices := s.vertices
       normals := s.normals
       tangents := s.tangents
       bitangents := List.replicate s.vertices.length ⟨0, 0, 0⟩
       vertexColors := s.vertexColors.map reinterpretAsLinear
       numUVComponents0 := 2
       textureCoordinates0 := s.textureCoordinates.map (fun uv => ⟨uv.x, uv.y, 0⟩)
       faces := TrianglesToFaces s.triangles } : FAssimpMesh)
  match TArrayFindIndex st.uniqueMaterials s.material with
  | some foundMaterialIndex =>
    { st with meshes := st.meshes ++ [buildMesh foundMaterialIndex] }
  | none =>
    let newMaterial : AiMaterialRec :=
      { name := match s.material with
          | some handle => materialNameOf handle
          | none => "Unknown"
        twoSided := true
        shininess := 0
        diffuseTexturePath := assimpDiffuseTexturePath }
    { meshes := st.meshes ++ [buildMesh st.uniqueMaterials.length]
      materials := st.materials ++ [newMaterial]
      uniqueMaterials := st.uniqueMaterials ++ [s.material] }

/-- The object-space-to-node-space transform step applied to every
gathered section before grouping: positions affinely, normals and
tangents direction-only. -/
def TransformSectionToNodeSpace (nodeWorldTransform : FTransformQ)
    (s : FExportableMeshSection) : FExportableMeshSection :=
  let objectSpaceToNodeSpace := s.meshToWorld.mul nodeWorldTransform.Inverse
  { s with
    vertices := s.vertices.map objectSpaceToNodeSpace.TransformPosition
    normals := s.normals.map objectSpaceToNodeSpace.TransformVector
    tangents := s.tangents.map objectSpaceToNodeSpace.TransformVector }

/-- TMap::FindOrAdd followed by an in-place update of the keyed group:
existing keys are updated in place, a new key is appended, preserving
first-insertion order. -/
def MapFindOrAddApply (m : List (Option ℕ × List FExportableMeshSection)) (key : Option ℕ)
    (f : List FExportableMeshSection → List FExportableMeshSection) :
    List (Option ℕ × List FExportableMeshSection) :=
  match m with
  | [] => [(key, f [])]
  | (k, v) :: rest =>
    if k == key then (k, f v) :: rest else (k, v) :: MapFindOrAddApply rest key f

/-- Placement of one transformed section into its material group: with
bCombineSameMaterial set and a first section already present the section
is appended into that first section, otherwise it is kept separate. -/
def PlaceSectionInGroup (param : FRuntimeMeshExportParam)
    (m : List (Option ℕ × List FExportableMeshSection))
    (s : FExportableMeshSection) : List (Option ℕ × List FExportableMeshSection) :=
  MapFindOrAddApply m s.material (fun materialSections =>
    match param.bCombineSameMaterial, materialSections with
    | true, first :: others => first.Append s :: others
    | _, others => others ++ [s])

/-- FAssimpNode::CreateAssimpMeshesFromMeshData: transforms every
gathered section into node space, groups by material handle in
first-insertion order (combining into the group's first section when
requested), then creates one aiMesh per resulting section in group
order, resolving materials against the scene pools. -/
def CreateAssimpMeshesFromMeshData (materialNameOf : ℕ → String)
    (param : FRuntimeMeshExportParam) (nodeWorldTransform : FTransformQ)
    (gathered : List (List FExportableMeshSection)) (st : ScenePools) : ScenePools :=
  let mapMaterialSections :=
    gathered.foldl (fun m sections =>
      sections.foldl (fun m s =>
        PlaceSectionInGroup param m (TransformSectionToNodeSpace nodeWorldTransform s)) m) []
  mapMaterialSections.foldl (fun st kv =>
    kv.2.foldl (CreateMeshFromSection materialNameOf) st) st

/-- The material pools invariant the design document states: as many
material records as unique-material entries, and every mesh's material
index valid for the materials pool. -/
def MaterialPoolsWF (st : ScenePools) : Prop :=
  st.materials.length = st.uniqueMaterials.length ∧
  ∀ mesh ∈ st.meshes, mesh.materialIndex < st.materials.length

/-- FAssimpScene's owned aggregate: the root of the node tree, the mesh
and material pools, the unique-material index and the skip counter. -/
structure FAssimpScene where
  rootNode : FAssimpNode
  meshes : List FAssimpMesh
  materials : List AiMaterialRec
  uniqueMaterials : List (Option ℕ)
  numObjectsSkipped : ℕ

/-- FAssimpScene::PrepareSceneForExport: resets the skipped counter,
gathers every node of the cached pre-order traversal, then processes the
gathered data along the build traversal, growing the scene pools. -/
def PrepareSceneForExport (materialNameOf : ℕ → String) (param : FRuntimeMeshExportParam)
    (scene : FAssimpScene) : FAssimpScene :=
  let nodes := GetNodesRecursive scene.rootNode
  let numSkipped := (nodes.map (fun node => (GatherMeshData node.exportObjects).2)).sum
  let pools := (ProcessGatheredOrder scene.rootNode).foldl
    (fun st node => CreateAssimpMeshesFromMeshData materialNameOf param
      node.worldTransform (GatherMeshData node.exportObjects).1 st)
    ⟨scene.meshes, scene.materials, scene.uniqueMaterials⟩
  { scene with
    meshes := pools.meshes
    materials := pools.materials
    uniqueMaterials := pools.uniqueMaterials
    numObjectsSkipped := numSkipped }

/-- The assimp exporter's return status. -/
inductive AiReturn where
  | Success
  | Failure
  | OutOfMemory
deriving DecidableEq

/-- FRuntimeMeshExportResult: verdict, accumulated error lines, and the
skip counter copied out of the scene. -/
structure FRuntimeMeshExportResult where
  bSuccess : Bool
  error : List String
  numObjectsSkipped : ℕ
deriving DecidableEq

/-- URuntimeMeshExporter: the in-flight flag and the owned scene. -/
structure URuntimeMeshExporter where
  bIsExporting : Bool
  scene : FAssimpScene

/-- A UObject offered to AddObjectIfExportable: whether its class
implements the exportable capability, and the capability view if so. -/
structure UObjectModel where
  implementsExportable : Bool
  asExportable : IMeshExportable

/-- Replace a node's world transform, keeping everything else. -/
def FAssimpNode.setWorldTransform : FAssimpNode → FTransformQ → FAssimpNode
  | FAssimpNode.mk nm _ objs cs, tf => FAssimpNode.mk nm tf objs cs

/-- Attach one more geometry source to a node. -/
def FAssimpNode.attachExportObject : FAssimpNode → IMeshExportable → FAssimpNode
  | FAssimpNode.mk nm tf objs cs, obj => FAssimpNode.mk nm tf (objs ++ [obj]) cs

/-- URuntimeMeshExporter::AddNode: rejected without mutation while an
export is in flight; otherwise finds or creates the named node and sets
its world transform. -/
def URuntimeMeshExporter.AddNode (e : URuntimeMeshExporter)
    (hierarchicalName : List String) (nodeTransformWS : FTransformQ) : URuntimeMeshExporter :=
  if e.bIsExporting then e
  else
    let newRoot := FindOrCreateApply e.scene.rootNode hierarchicalName
      (fun node => node.setWorldTransform nodeTransformWS)
    { e with scene := { e.scene with rootNode := newRoot } }

/-- URuntimeMeshExporter::AddExportObject: rejected without mutation
while an export is in flight; otherwise attaches the source to the node
named by the override path or by the source's own default path. -/
def URuntimeMeshExporter.AddExportObject (e : URuntimeMeshExporter)
    (exportable : IMeshExportable) (bOverrideNode : Bool)
    (hierarchicalNodeName : List String) : URuntimeMeshExporter :=
  if e.bIsExporting then e
  else
    let nodeList :=
      if bOverrideNode then hierarchicalNodeName else exportable.hierarchicalNodeName
    let newRoot := FindOrCreateApply e.scene.rootNode nodeList
      (fun node => node.attachExportObject exportable)
    { e with scene := { e.scene with rootNode := newRoot } }

/-- URuntimeMeshExporter::AddExportObjects: the list variant; rejected as
a whole while an export is in flight. -/
def URuntimeMeshExporter.AddExportObjects (e : URuntimeMeshExporter)
    (exportables : List IMeshExportable) (bOverrideNode : Bool)
    (hierarchicalNodeName : List String) : URuntimeMeshExporter :=
  if e.bIsExporting then e
  else
    exportables.foldl
      (fun acc obj => acc.AddExportObject obj bOverrideNode hierarchicalNodeName) e

/-- URuntimeMeshExporter::AddObjectIfExportable: rejected (returning
false) while an export is in flight; false without mutation when the
object lacks the capability; otherwise adds it as an export object. -/
def URuntimeMeshExporter.AddObjectIfExportable (e : URuntimeMeshExporter)
    (object : UObjectModel) (bOverrideNode : Bool) (hierarchicalNodeName : List String) :
    URuntimeMeshExporter × Bool :=
  if e.bIsExporting then (e, false)
  else if !object.implementsExportable then (e, false)
  else (e.AddExportObject object.asExportable bOverrideNode hierarchicalNodeName, true)

/-- URuntimeMeshExporter::PostExportWork's verdict: appends the
per-status failure line to the codec's error text, succeeds only on a
Success status with no accumulated error, copies the skip counter into
the result, and clears the scene's pools for the next session. -/
def PostExportWork (aiExporterReturn : AiReturn) (aiExporterError : List String)
    (scene : FAssimpScene) : FAssimpScene × FRuntimeMeshExportResult :=
  let error := aiExporterError
  let error :=
    match aiExporterReturn with
    | AiReturn.OutOfMemory => error ++ ["Export failed: out of memory!"]
    | AiReturn.Failure => error ++ ["Export failed!"]
    | AiReturn.Success => error
  let bExportSuccessful := aiExporterReturn == AiReturn.Success && error.isEmpty
  ({ scene with meshes := [], materials := [], uniqueMaterials := [] },
   { bSuccess := bExportSuccessful
     error := error
     numObjectsSkipped := scene.numObjectsSkipped })

/-- URuntimeMeshExporter::Export: a busy exporter fails fast with an
"Already exporting!" error and no state change; otherwise the scene is
prepared (gather then build), the codec runs (its status and error text
are inputs of the model), and PostExportWork yields the verdict and
clears the session. -/
def URuntimeMeshExporter.Export (e : URuntimeMeshExporter)
    (param : FRuntimeMeshExportParam) (materialNameOf : ℕ → String)
    (codecReturn : AiReturn) (codecError : List String) :
    URuntimeMeshExporter × FRuntimeMeshExportResult :=
  if e.bIsExporting then
    (e, { bSuccess := false, error := ["Already exporting!"], numObjectsSkipped := 0 })
  else
    let prepared := PrepareSceneForExport materialNameOf param e.scene
    let post := PostExportWork codecReturn codecError prepared
    ({ bIsExporting := false, scene := post.1 }, post.2)

/-- A valid single-section response used by the end-to-end scenario. -/
def goodSection : FExportableMeshSection :=
  { meshToWorld := FTransformQ.identity
    material := some 5
    vertices := [⟨0, 0, 0⟩, ⟨1, 0, 0⟩, ⟨0, 1, 0⟩]
    normals := [⟨0, 0, 1⟩, ⟨0, 0, 1⟩, ⟨0, 0, 1⟩]
    tangents := [⟨1, 0, 0⟩, ⟨1, 0, 0⟩, ⟨1, 0, 0⟩]
    textureCoordinates := [⟨0, 0⟩, ⟨1, 0⟩, ⟨0, 1⟩]
    vertexColors := [⟨255, 255, 255, 255⟩, ⟨255, 255, 255, 255⟩, ⟨255, 255, 255, 255⟩]
    triangles := [0, 1, 2] }

/-- A source that refuses the request. -/
def refusingSource : IMeshExportable := ⟨[], false, [goodSection]⟩

/-- A source that accepts but returns zero sections. -/
def emptySource : IMeshExportable := ⟨[], true, []⟩

/-- A source that returns one valid section. -/
def goodSource : IMeshExportable := ⟨[], true, [goodSection]⟩

/-- The root node of the three-source scenario: one refusing source, one
returning zero sections, one valid. -/
def threeSourceRoot : FAssimpNode :=
  FAssimpNode.mk "" FTransformQ.identity [refusingSource, emptySource, goodSource] []

/-- The scenario scene: the three-source root and fresh pools. -/
def threeSourceScene : FAssimpScene :=
  { rootNode := threeSourceRoot
    meshes := []
    materials := []
    uniqueMaterials := []
    numObjectsSkipped := 0 }

/-- Export parameters with no combining and a neutral correction. -/
def defaultExportParam : FRuntimeMeshExportParam :=
  ⟨false, 0, false,
   ⟨false, false, false, ERotationCorrection.Zero, ERotationCorrection.Zero,
    ERotationCorrection.Zero, 1⟩⟩

/-- The name table used by the scenarios for material handles. -/
def exampleMaterialNames : ℕ → String := fun _ => "Material"

/-- A busy exporter over the scenario scene. -/
def busyExporter : URuntimeMeshExporter := ⟨true, threeSourceScene⟩

/-- The scenario section retagged with a given material handle. -/
def sectionWithMaterial (handle : ℕ) : FExportableMeshSection :=
  { goodSection with material := some handle }

/-- Folding a push of `g face` over a list equals the accumulator followed
by the joined per-face lists. -/
theorem foldl_push_eq_flatten (g : AiFace → List ℤ) (faces : List AiFace) (init : List ℤ) :
    faces.foldl (fun tris face => tris ++ g face) init = init ++ (faces.map g).flatten := by
  induction faces generalizing init with
  | nil => simp
  | cons f fs ih => simp [ih, List.append_assoc]

/-- FlipWinding on joined triples swaps the last two entries of each triple. -/
theorem flipWinding_flatten (g1 g2 g3 : AiFace → ℤ) (faces : List AiFace) :
    FlipWinding ((faces.map (fun f => [g1 f, g2 f, g3 f])).flatten) =
      (faces.map (fun f => [g1 f, g3 f, g2 f])).flatten := by
  induction faces with
  | nil => simp [FlipWinding]
  | cons f fs ih => simp [FlipWinding, ih]

/-- Claim C3: section validation returns false exactly when one of the
parallel arrays (normals, tangents, vertexColors, textureCoordinates)
differs in length from the vertex array, or the triangle index count is
not a multiple of 3; a section meeting all five conditions validates true. -/
theorem validateMeshSection_false_iff (s : FExportableMeshSection) :
    ValidateMeshSection s = false ↔
      (s.normals.length ≠ s.vertices.length ∨ s.tangents.length ≠ s.vertices.length ∨
       s.vertexColors.length ≠ s.vertices.length ∨
       s.textureCoordinates.length ≠ s.vertices.length ∨
       s.triangles.length % 3 ≠ 0) := by
  unfold ValidateMeshSection
  split_ifs <;> simp_all <;> tauto

/-- Claim C4: appending section B into A (with matching material handles)
concatenates every parallel vertex array, leaves A's pre-existing
triangle indices in place as a prefix, and appends B's triangle indices
offset by A's vertex count taken before the append. -/
theorem append_concatenates_and_offsets (A B : FExportableMeshSection)
    (hmat : A.material = B.material) :
    (A.Append B).vertices = A.vertices ++ B.vertices ∧
    (A.Append B).normals = A.normals ++ B.normals ∧
    (A.Append B).tangents = A.tangents ++ B.tangents ∧
    (A.Append B).textureCoordinates = A.textureCoordinates ++ B.textureCoordinates ∧
    (A.Append B).vertexColors = A.vertexColors ++ B.vertexColors ∧
    (A.Append B).triangles =
      A.triangles ++ B.triangles.map (fun tri => tri + (A.vertices.length : ℤ)) ∧
    (A.Append B).triangles.take A.triangles.length = A.triangles ∧
    (A.Append B).vertices.length = A.vertices.length + B.vertices.length := by
  refine ⟨rfl, rfl, rfl, rfl, rfl, rfl, ?_, ?_⟩
  · show (A.triangles ++ B.triangles.map fun tri => tri + (A.vertices.length : ℤ)).take
      A.triangles.length = A.triangles
    simp
  · show (A.vertices ++ B.vertices).length = A.vertices.length + B.vertices.length
    simp

/-- Witness for claim C4 at the design document's example: A with 3
vertices and 1 triangle plus B with 2 vertices and no triangles yields 5
vertices with A's triangle indices unmodified, and any index of B would
have been shifted by A's vertex count 3. -/
theorem append_concatenates_and_offsets_witness :
    (exampleSectionA.Append exampleSectionB).vertices.length = 5 ∧
    (exampleSectionA.Append exampleSectionB).triangles = [0, 1, 2] ∧
    (exampleSectionA.Append exampleSectionB).triangles =
      exampleSectionA.triangles ++
        exampleSectionB.triangles.map (fun tri => tri + (3 : ℤ)) := by
  have h := append_concatenates_and_offsets exampleSectionA exampleSectionB rfl
  refine ⟨?_, ?_, ?_⟩
  · rw [h.2.2.2.2.2.2.2]; decide
  · rw [h.2.2.2.2.2.1]; decide
  · rw [h.2.2.2.2.2.1]; decide

/-- Claim C10: Append_Move offsets the source's triangle indices by the
destination's prior vertex count before concatenating, retains each
material field only when both sides agree on it (independently for name
and index, clearing to None / -1 on mismatch), and always clears the
source's material fields. -/
theorem appendMove_materials_and_offsets (self other : FRuntimeMeshImportSectionInfo) :
    (self.Append_Move other).1.materialName =
      (if self.materialName = other.materialName then self.materialName else none) ∧
    (self.Append_Move other).1.materialIndex =
      (if self.materialIndex = other.materialIndex then self.materialIndex else -1) ∧
    (self.materialName ≠ other.materialName → (self.Append_Move other).1.materialName = none) ∧
    (self.materialIndex ≠ other.materialIndex → (self.Append_Move other).1.materialIndex = -1) ∧
    (self.Append_Move other).2.materialName = none ∧
    (self.Append_Move other).2.materialIndex = -1 ∧
    (self.Append_Move other).1.triangles =
      self.triangles ++ other.triangles.map (fun index => index + (self.vertices.length : ℤ)) ∧
    (self.Append_Move other).1.vertices = self.vertices ++ other.vertices := by
  refine ⟨rfl, rfl, ?_, ?_, rfl, rfl, rfl, rfl⟩
  · intro h
    simp [FRuntimeMeshImportSectionInfo.Append_Move, if_neg h]
  · intro h
    simp [FRuntimeMeshImportSectionInfo.Append_Move, if_neg h]

/-- Witness for claim C10: a concrete merge where the names agree but the
indices differ keeps the name, drops the index to -1, and offsets the
source's only triangle index by the destination's 2 vertices. -/
theorem appendMove_materials_and_offsets_witness :
    ((⟨some "M", 0, [⟨0, 0, 0⟩, ⟨1, 0, 0⟩], [], [], [], [], []⟩ :
        FRuntimeMeshImportSectionInfo).Append_Move
      ⟨some "M", 1, [⟨2, 0, 0⟩], [0], [], [], [], []⟩).1.materialName = some "M" ∧
    ((⟨some "M", 0, [⟨0, 0, 0⟩, ⟨1, 0, 0⟩], [], [], [], [], []⟩ :
        FRuntimeMeshImportSectionInfo).Append_Move
      ⟨some "M", 1, [⟨2, 0, 0⟩], [0], [], [], [], []⟩).1.materialIndex = -1 ∧
    ((⟨some "M", 0, [⟨0, 0, 0⟩, ⟨1, 0, 0⟩], [], [], [], [], []⟩ :
        FRuntimeMeshImportSectionInfo).Append_Move
      ⟨some "M", 1, [⟨2, 0, 0⟩], [0], [], [], [], []⟩).1.triangles = [2] := by
  have h := appendMove_materials_and_offsets
    ⟨some "M", 0, [⟨0, 0, 0⟩, ⟨1, 0, 0⟩], [], [], [], [], []⟩
    ⟨some "M", 1, [⟨2, 0, 0⟩], [0], [], [], [], []⟩
  refine ⟨?_, ?_, ?_⟩
  · rw [h.1]; decide
  · rw [h.2.1]; decide
  · rw [h.2.2.2.2.2.2.1]; decide

/-- Claim C7: importing triangles under a transform whose scale components
multiply to a negative value emits every face as (index0, index2, index1);
under a non-negative product faces are emitted as (index0, index1, index2);
so a negative-determinant import equals the winding-flipped
positive-determinant import of the same faces. -/
theorem importTriangles_winding (t : FTransformQ) (faces : List AiFace) :
    ImportSectionTriangles t faces =
      (faces.map (fun f =>
        if t.scale3D.x * t.scale3D.y * t.scale3D.z < 0
        then [(f.i0 : ℤ), (f.i2 : ℤ), (f.i1 : ℤ)]
        else [(f.i0 : ℤ), (f.i1 : ℤ), (f.i2 : ℤ)])).flatten ∧
    (∀ t' : FTransformQ, t.scale3D.x * t.scale3D.y * t.scale3D.z < 0 →
      0 ≤ t'.scale3D.x * t'.scale3D.y * t'.scale3D.z →
      ImportSectionTriangles t faces = FlipWinding (ImportSectionTriangles t' faces)) := by
  constructor
  · by_cases h : t.scale3D.x * t.scale3D.y * t.scale3D.z < 0
    · simp only [ImportSectionTriangles, if_pos h, foldl_push_eq_flatten, List.nil_append, h]
      simp [h]
    · simp only [ImportSectionTriangles, if_neg h, foldl_push_eq_flatten, List.nil_append, h]
      simp [h]
  · intro t' h h'
    have h2 : ¬ t'.scale3D.x * t'.scale3D.y * t'.scale3D.z < 0 := not_lt.mpr h'
    simp only [ImportSectionTriangles, if_pos h, if_neg h2, foldl_push_eq_flatten,
      List.nil_append]
    rw [flipWinding_flatten]

/-- The gather-phase traversal distributes over list append. -/
theorem getNodesRecursiveList_append (l1 l2 : List FAssimpNode) :
    GetNodesRecursiveList (l1 ++ l2) =
      GetNodesRecursiveList l1 ++ GetNodesRecursiveList l2 := by
  induction l1 with
  | nil => simp [GetNodesRecursiveList]
  | cons c cs ih => simp [GetNodesRecursiveList, ih]

mutual

/-- The build-phase visit names equal the gather-phase visit names of the
sibling-reversed tree. -/
theorem processOrder_names_eq_gather_mirror (t : FAssimpNode) :
    (ProcessGatheredOrder t).map FAssimpNode.name =
      (GetNodesRecursive (MirrorNode t)).map FAssimpNode.name := by
  cases t with
  | mk n tf objs cs =>
    simp only [ProcessGatheredOrder, MirrorNode, GetNodesRecursive, List.map_cons,
      FAssimpNode.name, processOrderList_names_eq_gather_mirror cs]

/-- List version of `processOrder_names_eq_gather_mirror`. -/
theorem processOrderList_names_eq_gather_mirror (cs : List FAssimpNode) :
    (ProcessGatheredOrderListRev cs).map FAssimpNode.name =
      (GetNodesRecursiveList (MirrorChildren cs)).map FAssimpNode.name := by
  cases cs with
  | nil => simp [ProcessGatheredOrderListRev, MirrorChildren, GetNodesRecursiveList]
  | cons c cs =>
    simp only [ProcessGatheredOrderListRev, MirrorChildren, getNodesRecursiveList_append,
      List.map_append, processOrderList_names_eq_gather_mirror cs,
      processOrder_names_eq_gather_mirror c, GetNodesRecursiveList, List.append_nil]

end

mutual

/-- The build-phase visit sequence is a permutation of the gather-phase
visit sequence. -/
theorem processOrder_perm_gather (t : FAssimpNode) :
    (ProcessGatheredOrder t).Perm (GetNodesRecursive t) := by
  cases t with
  | mk n tf objs cs =>
    simp only [ProcessGatheredOrder, GetNodesRecursive]
    exact List.Perm.cons _ (processOrderList_perm_gather cs)

/-- List version of `processOrder_perm_gather`. -/
theorem processOrderList_perm_gather (cs : List FAssimpNode) :
    (ProcessGatheredOrderListRev cs).Perm (GetNodesRecursiveList cs) := by
  cases cs with
  | nil => simp [ProcessGatheredOrderListRev, GetNodesRecursiveList]
  | cons c cs =>
    simp only [ProcessGatheredOrderListRev, GetNodesRecursiveList]
    exact ((List.Perm.append (processOrderList_perm_gather cs)
      (processOrder_perm_gather c)).trans (List.perm_append_comm))

end

/-- Counterexample to claim C2 as stated: for a root with children
[a, b], the gather phase visits r, a, b but the build phase visits
r, b, a, so the two visit sequences are not identical. -/
theorem gather_build_order_counterexample :
    ProcessGatheredOrder exampleTreeTwoChildren ≠
      GetNodesRecursive exampleTreeTwoChildren := by
  intro h
  have h2 := congrArg (List.map FAssimpNode.name) h
  simp only [exampleTreeTwoChildren, ProcessGatheredOrder, ProcessGatheredOrderListRev,
    GetNodesRecursive, GetNodesRecursiveList, FAssimpNode.name, List.map_cons,
    List.append_nil, List.nil_append, List.map_append, List.map_nil] at h2
  simp at h2

/-- Claim C2 (amended): both phases visit the same nodes with parents
before children and each phase is deterministic, but the build phase
iterates children in reverse order: its visit sequence equals the gather
pre-order of the sibling-reversed tree and is a permutation of — not in
general identical to — the gather sequence. -/
theorem build_order_is_sibling_reversed_gather_order (t : FAssimpNode) :
    (ProcessGatheredOrder t).map FAssimpNode.name =
      (GetNodesRecursive (MirrorNode t)).map FAssimpNode.name ∧
    (ProcessGatheredOrder t).Perm (GetNodesRecursive t) :=
  ⟨processOrder_names_eq_gather_mirror t, processOrder_perm_gather t⟩

/-- The found or created node keeps the receiver's name. -/
theorem findOrCreateNode_fst_name (p : List String) (t : FAssimpNode) :
    (FindOrCreateNode t p).1.name = t.name := by
  cases p with
  | nil => cases t <;> rfl
  | cons seg rest =>
    cases t with
    | mk nm tf objs cs =>
      cases h : cs.find? (fun child => child.name == seg) with
      | some c =>
        simp only [FindOrCreateNode, h]
        rfl
      | none =>
        simp only [FindOrCreateNode, h]
        rfl

/-- After replacing the first matching child, the first matching child is
the replacement. -/
theorem find?_setFirstChild {cs : List FAssimpNode} {seg : String} {c c1 : FAssimpNode}
    (h : cs.find? (fun child => child.name == seg) = some c)
    (hname : (c1.name == seg) = true) :
    (SetFirstChild cs seg c1).find? (fun child => child.name == seg) = some c1 := by
  induction cs with
  | nil => simp at h
  | cons x xs ih =>
    by_cases hx : (x.name == seg) = true
    · simp [SetFirstChild, hx, List.find?, hname]
    · rw [List.find?] at h
      simp only [hx] at h
      simp [SetFirstChild, hx, List.find?, ih h]

/-- Replacing the first matching child twice with the same node is the
same as replacing it once. -/
theorem setFirstChild_setFirstChild {cs : List FAssimpNode} {seg : String}
    {c1 : FAssimpNode} (hname : (c1.name == seg) = true) :
    SetFirstChild (SetFirstChild cs seg c1) seg c1 = SetFirstChild cs seg c1 := by
  induction cs with
  | nil => rfl
  | cons x xs ih =>
    by_cases hx : (x.name == seg) = true
    · simp [SetFirstChild, hx, hname]
    · simp [SetFirstChild, hx, ih]

/-- With no matching child present, replacing in the extended list only
touches the appended node. -/
theorem setFirstChild_append_of_none {cs : List FAssimpNode} {seg : String}
    {c1 : FAssimpNode} (h : cs.find? (fun child => child.name == seg) = none)
    (hname : (c1.name == seg) = true) :
    SetFirstChild (cs ++ [c1]) seg c1 = cs ++ [c1] := by
  induction cs with
  | nil => simp [SetFirstChild, hname]
  | cons x xs ih =>
    rw [List.find?] at h
    by_cases hx : (x.name == seg) = true
    · simp [hx] at h
    · simp only [hx] at h
      simp [SetFirstChild, hx, ih h]

/-- With no matching child present, the appended matching node is found. -/
theorem find?_append_of_none {cs : List FAssimpNode} {seg : String}
    {c1 : FAssimpNode} (h : cs.find? (fun child => child.name == seg) = none)
    (hname : (c1.name == seg) = true) :
    (cs ++ [c1]).find? (fun child => child.name == seg) = some c1 := by
  induction cs with
  | nil => simp [List.find?, hname]
  | cons x xs ih =>
    rw [List.find?] at h
    by_cases hx : (x.name == seg) = true
    · simp [hx] at h
    · simp only [hx] at h
      simp [List.find?, hx, ih h]

/-- The first child whose name matches a prefix of non-matching children
followed by a matching child is that child. -/
theorem find?_prefix_first {pre mid : List FAssimpNode} {seg : String} {c1 : FAssimpNode}
    (hpre : ∀ c ∈ pre, (c.name == seg) = false) (hc1 : (c1.name == seg) = true) :
    (pre ++ c1 :: mid).find? (fun child => child.name == seg) = some c1 := by
  induction pre with
  | nil => simp [List.find?, hc1]
  | cons x xs ih =>
    have hx := hpre x (List.mem_cons_self x xs)
    simp only [List.cons_append, List.find?, hx]
    exact ih (fun c hc => hpre c (List.mem_cons_of_mem x hc))

/-- FindOrCreateNode is idempotent: repeating the same path on the
updated tree changes nothing and returns the same node. -/
theorem findOrCreateNode_idem (p : List String) (t : FAssimpNode) :
    FindOrCreateNode (FindOrCreateNode t p).1 p = FindOrCreateNode t p := by
  induction p generalizing t with
  | nil => cases t <;> rfl
  | cons seg rest ih =>
    cases t with
    | mk nm tf objs cs =>
      cases h : cs.find? (fun child => child.name == seg) with
      | some c =>
        have hc0 := List.find?_some h
        have hcname : (c.name == seg) = true := hc0
        have hc1 : ((FindOrCreateNode c rest).1.name == seg) = true := by
          rw [findOrCreateNode_fst_name]; exact hcname
        simp only [FindOrCreateNode, h, find?_setFirstChild h hc1, ih,
          setFirstChild_setFirstChild hc1]
      | none =>
        have hc1 : ((FindOrCreateNode (FAssimpNode.mk seg FTransformQ.identity [] []) rest).1.name
            == seg) = true := by
          rw [findOrCreateNode_fst_name]; simp [FAssimpNode.name]
        simp only [FindOrCreateNode, h, find?_append_of_none h hc1, ih,
          setFirstChild_append_of_none h hc1]

/-- Claim C6: FindOrCreateNode called twice with the same path returns
the same node and the second call creates no new nodes (the updated tree
is unchanged); an empty path returns the receiver itself; duplicate
child names resolve first-match-wins (the walk descends into the first
matching child even when later children carry the same name); and the
hierarchical name of a parentless node is the literal "root" while any
other node's hierarchical name is its parent's hierarchical name, a dot,
then its own name. -/
theorem findOrCreateNode_idempotent_first_match_and_naming
    (t : FAssimpNode) (p : List String)
    (nm seg n : String) (tf : FTransformQ) (objs : List IMeshExportable)
    (pre mid : List FAssimpNode) (c1 : FAssimpNode) (rest : List String)
    (ancestors : List String)
    (hpre : ∀ c ∈ pre, (c.name == seg) = false)
    (hc1 : (c1.name == seg) = true) :
    FindOrCreateNode t [] = (t, t) ∧
    FindOrCreateNode (FindOrCreateNode t p).1 p = FindOrCreateNode t p ∧
    (FindOrCreateNode (FAssimpNode.mk nm tf objs (pre ++ c1 :: mid)) (seg :: rest)).2 =
      (FindOrCreateNode c1 rest).2 ∧
    GetHierarchicalName [] = "root" ∧
    GetHierarchicalName (n :: ancestors) = GetHierarchicalName ancestors ++ "." ++ n := by
  refine ⟨?_, findOrCreateNode_idem p t, ?_, rfl, rfl⟩
  · cases t <;> rfl
  · simp only [FindOrCreateNode, find?_prefix_first hpre hc1]

/-- Witness for claim C6: creating the path A.B under a fresh root and
repeating the call returns the identical tree and node pair. -/
theorem findOrCreateNode_idempotent_witness :
    FindOrCreateNode
        (FindOrCreateNode (FAssimpNode.mk "root" FTransformQ.identity [] []) ["A", "B"]).1
        ["A", "B"] =
      FindOrCreateNode (FAssimpNode.mk "root" FTransformQ.identity [] []) ["A", "B"] :=
  (findOrCreateNode_idempotent_first_match_and_naming
    (FAssimpNode.mk "root" FTransformQ.identity [] []) ["A", "B"] "r" "x" "B"
    FTransformQ.identity [] [] [] (FAssimpNode.mk "x" FTransformQ.identity [] []) []
    ["A"] (by simp) rfl).2.1

/-- Claim C5: a node with a parent binds
inverse(parent.worldTransform) * node.worldTransform and no correction is
applied there (the bound transform does not depend on the correction);
the parentless root applies the correction exactly once: its scale is
multiplied by the uniform factor with each flagged axis sign-flipped, its
translation is kept, and a rotation offset is concatenated whose
per-axis corrections each evaluate to one of -90, 0 or +90 degrees. -/
theorem relative_transform_correction_only_at_root
    (parentWorld worldTransform : FTransformQ) (param param2 : FRuntimeMeshExportParam)
    (c : ERotationCorrection) :
    SetDataAndPtrsRelativeTransform (some parentWorld) worldTransform param =
      (parentWorld.Inverse).mul worldTransform ∧
    SetDataAndPtrsRelativeTransform (some parentWorld) worldTransform param =
      SetDataAndPtrsRelativeTransform (some parentWorld) worldTransform param2 ∧
    SetDataAndPtrsRelativeTransform none worldTransform param =
      { rotation := worldTransform.rotation.mul
          (RotatorToMatrix param.correction.PitchCorrection_Y
            param.correction.YawCorrection_Z param.correction.RollCorrection_X)
        translation := worldTransform.translation
        scale3D :=
          ⟨(if param.correction.bFlipX then -1 else 1) *
              (worldTransform.scale3D.x * param.correction.scaleFactor),
           (if param.correction.bFlipY then -1 else 1) *
              (worldTransform.scale3D.y * param.correction.scaleFactor),
           (if param.correction.bFlipZ then -1 else 1) *
              (worldTransform.scale3D.z * param.correction.scaleFactor)⟩ } ∧
    (RotationCorrectionToValue c = -90 ∨ RotationCorrectionToValue c = 0 ∨
      RotationCorrectionToValue c = 90) := by
  refine ⟨rfl, rfl, ?_, ?_⟩
  · cases hx : param.correction.bFlipX <;> cases hy : param.correction.bFlipY <;>
      cases hz : param.correction.bFlipZ <;>
      simp [SetDataAndPtrsRelativeTransform, FTransformQ.ConcatenateRotation, V3.smul,
        hx, hy, hz] <;>
      ring_nf <;> simp
  · cases c <;> simp [RotationCorrectionToValue]

/-- A gather step keeps an object exactly when all three skip checks pass. -/
theorem gatherMeshDataStep_characterization (o : IMeshExportable)
    (acc : List (List FExportableMeshSection) × ℕ) :
    GatherMeshDataStep acc o =
      (if GatherKeeps o then (acc.1 ++ [o.sections], acc.2) else (acc.1, acc.2 + 1)) := by
  unfold GatherMeshDataStep GatherKeeps
  by_cases h1 : o.bAccepted
  · by_cases h2 : o.sections.length = 0
    · have h2' : o.sections.isEmpty = true := by
        rw [List.isEmpty_iff, ← List.length_eq_zero]; exact h2
      simp [h1, h2, h2']
    · have h2' : o.sections.isEmpty = false := by
        rcases hs : o.sections with _ | ⟨x, xs⟩
        · rw [hs] at h2; simp at h2
        · rfl
      by_cases h3 : (o.sections.all fun s => ValidateMeshSection s) = true
      · simp [h1, h2, h2', h3]
      · simp [h1, h2, h2', h3]
  · simp [h1]

/-- The gather loop from any accumulator: kept objects' sections are
buffered in order and every skipped object adds exactly one to the
counter. -/
theorem gatherMeshData_foldl (objects : List IMeshExportable)
    (acc : List (List FExportableMeshSection) × ℕ) :
    objects.foldl GatherMeshDataStep acc =
      (acc.1 ++ (objects.filter GatherKeeps).map (fun o => o.sections),
       acc.2 + (objects.filter (fun o => !GatherKeeps o)).length) := by
  induction objects generalizing acc with
  | nil => simp
  | cons o os ih =>
    rw [List.foldl_cons, ih, gatherMeshDataStep_characterization]
    by_cases h : GatherKeeps o = true
    · simp [h, List.filter_cons]
    · have h' : GatherKeeps o = false := by simp_all
      simp [h', List.filter_cons]
      omega

/-- Claim C1: a source that refuses, returns an empty section list, or
returns at least one invalid section is skipped as a whole with the
scene-level skipped counter incremented by exactly one per skipped
source, while the gather continues with the remaining sources; in the
concrete three-source scene (one refusing, one empty, one valid) the
prepared scene reports numObjectsSkipped = 2 and its meshes are built
only from the remaining valid source. -/
theorem gather_skip_accounting (objects : List IMeshExportable) :
    GatherMeshData objects =
      ((objects.filter GatherKeeps).map (fun o => o.sections),
       (objects.filter (fun o => !GatherKeeps o)).length) ∧
    (PrepareSceneForExport exampleMaterialNames defaultExportParam
        threeSourceScene).numObjectsSkipped = 2 ∧
    (PrepareSceneForExport exampleMaterialNames defaultExportParam
        threeSourceScene).meshes.map (fun mesh => mesh.faces) = [[(0, 1, 2)]] ∧
    (PrepareSceneForExport exampleMaterialNames defaultExportParam
        threeSourceScene).meshes.map (fun mesh => mesh.materialIndex) = [0] := by
  have hg : GetNodesRecursive threeSourceRoot = [threeSourceRoot] := by
    simp [threeSourceRoot, GetNodesRecursive, GetNodesRecursiveList]
  have hp : ProcessGatheredOrder threeSourceRoot = [threeSourceRoot] := by
    simp [threeSourceRoot, ProcessGatheredOrder, ProcessGatheredOrderListRev]
  refine ⟨?_, ?_, ?_, ?_⟩
  · unfold GatherMeshData
    rw [gatherMeshData_foldl]
    simp
  · simp only [PrepareSceneForExport, threeSourceScene, hg, hp]
    decide
  · simp only [PrepareSceneForExport, threeSourceScene, hg, hp]
    decide
  · simp only [PrepareSceneForExport, threeSourceScene, hg, hp]
    decide

/-- TArray::Find's result is a valid index. -/
theorem tarrayFindIndex_lt_length {l : List (Option ℕ)} {key : Option ℕ} {i : ℕ}
    (h : TArrayFindIndex l key = some i) : i < l.length := by
  induction l generalizing i with
  | nil => simp [TArrayFindIndex] at h
  | cons x xs ih =>
    rw [TArrayFindIndex] at h
    by_cases hx : (x == key) = true
    · rw [if_pos hx] at h
      simp at h
      simp [← h]
    · rw [if_neg hx] at h
      rcases hmap : TArrayFindIndex xs key with _ | j
      · rw [hmap] at h; simp at h
      · rw [hmap] at h
        simp at h
        have := ih hmap
        simp
        omega

/-- One mesh creation preserves the material pools invariant. -/
theorem createMeshFromSection_WF (materialNameOf : ℕ → String) (st : ScenePools)
    (s : FExportableMeshSection) (h : MaterialPoolsWF st) :
    MaterialPoolsWF (CreateMeshFromSection materialNameOf st s) := by
  obtain ⟨hlen, hmesh⟩ := h
  cases hfind : TArrayFindIndex st.uniqueMaterials s.material with
  | some i =>
    have hi : i < st.uniqueMaterials.length := tarrayFindIndex_lt_length hfind
    refine ⟨?_, ?_⟩
    · simp [CreateMeshFromSection, hfind, hlen]
    · intro mesh hm
      simp only [CreateMeshFromSection, hfind, List.mem_append, List.mem_singleton] at hm
      rcases hm with hm | hm
      · simpa [CreateMeshFromSection, hfind] using hmesh mesh hm
      · subst hm
        simp [CreateMeshFromSection, hfind]
        omega
  | none =>
    refine ⟨?_, ?_⟩
    · simp [CreateMeshFromSection, hfind, hlen]
    · intro mesh hm
      simp only [CreateMeshFromSection, hfind, List.mem_append, List.mem_singleton] at hm
      rcases hm with hm | hm
      · have := hmesh mesh hm
        simp [CreateMeshFromSection, hfind]
        omega
      · subst hm
        simp [CreateMeshFromSection, hfind, hlen]

/-- Every mesh-creation pass preserves the material pools invariant. -/
theorem foldl_createMesh_WF (materialNameOf : ℕ → String)
    (sections : List FExportableMeshSection) (st : ScenePools)
    (h : MaterialPoolsWF st) :
    MaterialPoolsWF (sections.foldl (CreateMeshFromSection materialNameOf) st) := by
  induction sections generalizing st with
  | nil => exact h
  | cons s ss ih => exact ih _ (createMeshFromSection_WF materialNameOf st s h)

/-- Claim C9: material deduplication is first-seen-wins on handle
identity: an already-known handle reuses its existing index and appends
no material record; a new handle appends exactly one record (name from
the handle or "Unknown", two-sided forced true, zero shininess, the
diffuse texture property) at the next index; the pools invariant
len(materials) = len(uniqueMaterials) with every mesh's material index
valid is preserved by every mesh-creation pass; and two distinct handles
always yield two distinct material records. -/
theorem material_dedup_first_seen_wins (materialNameOf : ℕ → String)
    (st : ScenePools) (s : FExportableMeshSection)
    (sections : List FExportableMeshSection) (i handle1 handle2 : ℕ)
    (s1 s2 : FExportableMeshSection) :
    (MaterialPoolsWF st →
      MaterialPoolsWF (sections.foldl (CreateMeshFromSection materialNameOf) st)) ∧
    (TArrayFindIndex st.uniqueMaterials s.material = some i →
      (CreateMeshFromSection materialNameOf st s).materials = st.materials ∧
      (CreateMeshFromSection materialNameOf st s).uniqueMaterials = st.uniqueMaterials ∧
      (CreateMeshFromSection materialNameOf st s).meshes.map (fun m => m.materialIndex) =
        st.meshes.map (fun m => m.materialIndex) ++ [i]) ∧
    (TArrayFindIndex st.uniqueMaterials s.material = none →
      (CreateMeshFromSection materialNameOf st s).materials =
        st.materials ++
          [⟨(match s.material with
              | some handle => materialNameOf handle
              | none => "Unknown"),
            true, 0, assimpDiffuseTexturePath⟩] ∧
      (CreateMeshFromSection materialNameOf st s).uniqueMaterials =
        st.uniqueMaterials ++ [s.material] ∧
      (CreateMeshFromSection materialNameOf st s).meshes.map (fun m => m.materialIndex) =
        st.meshes.map (fun m => m.materialIndex) ++ [st.uniqueMaterials.length]) ∧
    (handle1 ≠ handle2 → s1.material = some handle1 → s2.material = some handle2 →
      ([s1, s2].foldl (CreateMeshFromSection materialNameOf)
          ⟨[], [], []⟩).materials.length = 2 ∧
      ([s1, s2].foldl (CreateMeshFromSection materialNameOf)
          ⟨[], [], []⟩).uniqueMaterials = [some handle1, some handle2]) := by
  refine ⟨fun h => foldl_createMesh_WF materialNameOf sections st h, ?_, ?_, ?_⟩
  · intro hfind
    refine ⟨?_, ?_, ?_⟩ <;> simp [CreateMeshFromSection, hfind]
  · intro hfind
    refine ⟨?_, ?_, ?_⟩ <;> simp [CreateMeshFromSection, hfind]
  · intro hne h1 h2
    have hbeq : ((some handle1 : Option ℕ) == some handle2) = false := by
      simp [hne]
    constructor <;>
      simp [CreateMeshFromSection, TArrayFindIndex, h1, h2, hbeq]

/-- Witness for claim C9: two sections with the distinct handles 1 and 2
and identical content produce two material records. -/
theorem material_dedup_first_seen_wins_witness :
    ([sectionWithMaterial 1, sectionWithMaterial 2].foldl
        (CreateMeshFromSection exampleMaterialNames) ⟨[], [], []⟩).materials.length = 2 ∧
    ([sectionWithMaterial 1, sectionWithMaterial 2].foldl
        (CreateMeshFromSection exampleMaterialNames) ⟨[], [], []⟩).uniqueMaterials =
      [some 1, some 2] :=
  (material_dedup_first_seen_wins exampleMaterialNames ⟨[], [], []⟩ goodSection []
      0 1 2 (sectionWithMaterial 1) (sectionWithMaterial 2)).2.2.2
    (by decide) rfl rfl

/-- Claim C8: while an export session is in flight, starting another
export returns immediately with bSuccess = false and hands back the
exporter unchanged (mesh and material pools untouched), and every
scene-mutation call — AddNode, AddExportObject, AddExportObjects,
AddObjectIfExportable — is rejected without mutating the scene tree. -/
theorem busy_exporter_rejects_all (e : URuntimeMeshExporter)
    (param : FRuntimeMeshExportParam) (materialNameOf : ℕ → String)
    (codecReturn : AiReturn) (codecError : List String)
    (path : List String) (tf : FTransformQ) (obj : IMeshExportable)
    (objs : List IMeshExportable) (uobj : UObjectModel) (flag : Bool)
    (hbusy : e.bIsExporting = true) :
    (e.Export param materialNameOf codecReturn codecError).1 = e ∧
    (e.Export param materialNameOf codecReturn codecError).2.bSuccess = false ∧
    (e.Export param materialNameOf codecReturn codecError).1.scene.meshes =
      e.scene.meshes ∧
    (e.Export param materialNameOf codecReturn codecError).1.scene.materials =
      e.scene.materials ∧
    e.AddNode path tf = e ∧
    e.AddExportObject obj flag path = e ∧
    e.AddExportObjects objs flag path = e ∧
    (e.AddObjectIfExportable uobj flag path).1 = e ∧
    (e.AddObjectIfExportable uobj flag path).2 = false := by
  simp [URuntimeMeshExporter.Export, URuntimeMeshExporter.AddNode,
    URuntimeMeshExporter.AddExportObject, URuntimeMeshExporter.AddExportObjects,
    URuntimeMeshExporter.AddObjectIfExportable, hbusy]

/-- Witness for claim C8: a concrete busy exporter turns down an export
request with bSuccess = false and comes back unchanged. -/
theorem busy_exporter_rejects_all_witness :
    (busyExporter.Export defaultExportParam exampleMaterialNames AiReturn.Success
        []).2.bSuccess = false ∧
    (busyExporter.Export defaultExportParam exampleMaterialNames AiReturn.Success []).1 =
      busyExporter := by
  have h := busy_exporter_rejects_all busyExporter defaultExportParam exampleMaterialNames
    AiReturn.Success [] [] FTransformQ.identity goodSource [] ⟨true, goodSource⟩ false rfl
  exact ⟨h.2.1, h.1⟩

end RMIE

